import Mathlib

/-!
Verification of the contemplative-science-digest pipeline core: the item
model (`src/models/items.py`), the deduplication store
(`src/filters/deduplication.py`), the relevance scorer
(`src/filters/relevance.py`) and the orchestration slice of
`src/main.py`.  Python datetimes are modelled by the `DateTime` structure
below together with executable `isoformat` / `fromisoformat` conversions
mirroring the CPython ones the repository relies on.
-/

namespace Digest


def digitChar (n : Nat) : Char := Char.ofNat (48 + n)

def pad : Nat → Nat → List Char
  | 0, _ => []
  | k+1, n => digitChar (n / 10 ^ k) :: pad k (n % 10 ^ k)

def readNat : Nat → Nat → List Char → Option (Nat × List Char)
  | 0, acc, cs => some (acc, cs)
  | _+1, _, [] => none
  | k+1, acc, c :: cs =>
    if c.isDigit then readNat k (acc * 10 + (c.toNat - 48)) cs else none

theorem digitChar_isDigit {d : Nat} (h : d < 10) : (digitChar d).isDigit = true := by
  interval_cases d <;> decide

theorem digitChar_toNat {d : Nat} (h : d < 10) : (digitChar d).toNat = 48 + d := by
  interval_cases d <;> decide

theorem readNat_pad (k : Nat) : ∀ (acc n : Nat) (rest : List Char), n < 10 ^ k →
    readNat k acc (pad k n ++ rest) = some (acc * 10 ^ k + n, rest) := by
  induction k with
  | zero =>
    intro acc n rest h
    have h0 : n = 0 := by simpa using h
    subst h0
    simp [pad, readNat]
  | succ k ih =>
    intro acc n rest h
    have hpos : 0 < 10 ^ k := Nat.pos_pow_of_pos k (by omega)
    have hd : n / 10 ^ k < 10 := Nat.div_lt_of_lt_mul (by rw [← pow_succ]; exact h)
    have hm : n % 10 ^ k < 10 ^ k := Nat.mod_lt _ hpos
    have h1 : readNat (k+1) acc (pad (k+1) n ++ rest)
        = readNat k (acc * 10 + ((digitChar (n / 10 ^ k)).toNat - 48))
            (pad k (n % 10 ^ k) ++ rest) := by
      simp [pad, readNat, digitChar_isDigit hd]
    rw [h1, digitChar_toNat hd]
    have h2 : acc * 10 + (48 + n / 10 ^ k - 48) = acc * 10 + n / 10 ^ k := by simp
    rw [h2, ih _ _ _ hm]
    have h3 : (acc * 10 + n / 10 ^ k) * 10 ^ k + n % 10 ^ k = acc * 10 ^ (k+1) + n := by
      have hdm := Nat.div_add_mod n (10 ^ k)
      calc (acc * 10 + n / 10 ^ k) * 10 ^ k + n % 10 ^ k
        = acc * (10 ^ k * 10) + (10 ^ k * (n / 10 ^ k) + n % 10 ^ k) := by ring
        _ = acc * 10 ^ (k+1) + n := by rw [hdm, pow_succ]
    rw [h3]

theorem readNat_pad_nil (k acc n : Nat) (h : n < 10 ^ k) :
    readNat k acc (pad k n) = some (acc * 10 ^ k + n, []) := by
  have := readNat_pad k acc n [] h
  simpa using this

structure DateTime where
  year : Nat
  month : Nat
  day : Nat
  hour : Nat
  minute : Nat
  second : Nat
  microsecond : Nat
deriving DecidableEq, Repr

def daysInMonth (y m : Nat) : Nat :=
  if m = 2 then
    if y % 4 = 0 ∧ (y % 100 ≠ 0 ∨ y % 400 = 0) then 29 else 28
  else if m = 4 ∨ m = 6 ∨ m = 9 ∨ m = 11 then 30 else 31

def DateTime.Valid (d : DateTime) : Prop :=
  1 ≤ d.year ∧ d.year ≤ 9999 ∧ 1 ≤ d.month ∧ d.month ≤ 12 ∧
  1 ≤ d.day ∧ d.day ≤ daysInMonth d.year d.month ∧
  d.hour ≤ 23 ∧ d.minute ≤ 59 ∧ d.second ≤ 59 ∧ d.microsecond ≤ 999999

instance (d : DateTime) : Decidable d.Valid := by
  unfold DateTime.Valid; infer_instance

def isoChars (d : DateTime) : List Char :=
  pad 4 d.year ++ ('-' :: (pad 2 d.month ++ ('-' :: (pad 2 d.day ++
  ('T' :: (pad 2 d.hour ++ (':' :: (pad 2 d.minute ++ (':' :: (pad 2 d.second ++
  (if d.microsecond = 0 then [] else '.' :: pad 6 d.microsecond)))))))))))

def DateTime.isoformat (d : DateTime) : String := String.mk (isoChars d)

/-- Result of `datetime.fromisoformat`: the parsed (naive) field values
together with the UTC offset of the attached `timezone` when the string
carried one — `tz = none` models a naive datetime, `tz = some o` an
offset-aware one with offset `o` in microseconds. -/
structure ParsedDT where
  dt : DateTime
  tz : Option Int
deriving DecidableEq, Repr

/-- The `datetime` constructor's range validation (`ValueError` when out
of range); the offset has already been range-checked by `timezone`. -/
def mkDT (y mo dy h mi s us : Nat) (tz : Option Int) : Option ParsedDT :=
  if 1 ≤ y ∧ y ≤ 9999 ∧ 1 ≤ mo ∧ mo ≤ 12 ∧ 1 ≤ dy ∧ dy ≤ daysInMonth y mo ∧
     h ≤ 23 ∧ mi ≤ 59 ∧ s ≤ 59 ∧ us ≤ 999999 then
    some ⟨⟨y, mo, dy, h, mi, s, us⟩, tz⟩
  else none

def expectChar (c : Char) : List Char → Option (List Char)
  | [] => none
  | c' :: cs => if c' = c then some cs else none

/-- Offset part after the sign: `HH:MM[:SS[.ffffff]]`, summed into
microseconds; `timezone(timedelta(...))` rejects offsets of a day or
more (`ValueError`, hence `none`). -/
def parseTZtail (sign : Int) : List Char → Option Int := fun r =>
  match readNat 2 0 r with
  | none => none
  | some (th, r) =>
  match expectChar ':' r with
  | none => none
  | some r =>
  match readNat 2 0 r with
  | none => none
  | some (tm, r) =>
  match r with
  | [] =>
    if (th * 3600 + tm * 60) * 1000000 < 86400000000 then
      some (sign * ((th * 3600 + tm * 60) * 1000000 : Nat))
    else none
  | ':' :: r =>
    (match readNat 2 0 r with
    | none => none
    | some (ts, r) =>
    match r with
    | [] =>
      if (th * 3600 + tm * 60 + ts) * 1000000 < 86400000000 then
        some (sign * ((th * 3600 + tm * 60 + ts) * 1000000 : Nat))
      else none
    | '.' :: r =>
      (match readNat 6 0 r with
      | some (tf, []) =>
        if (th * 3600 + tm * 60 + ts) * 1000000 + tf < 86400000000 then
          some (sign * ((th * 3600 + tm * 60 + ts) * 1000000 + tf : Nat))
        else none
      | _ => none)
    | _ => none)
  | _ => none

/-- End of the time part: either the string ends (naive) or a `+`/`-`
starts the offset of an aware datetime; anything else is a
`ValueError`. -/
def timeEnd (y mo dy h mi s us : Nat) : List Char → Option ParsedDT
  | [] => mkDT y mo dy h mi s us none
  | '+' :: r =>
    (match parseTZtail 1 r with
    | some off => mkDT y mo dy h mi s us (some off)
    | none => none)
  | '-' :: r =>
    (match parseTZtail (-1) r with
    | some off => mkDT y mo dy h mi s us (some off)
    | none => none)
  | _ => none

/-- Parser for `datetime.fromisoformat` (CPython 3.7-3.10 grammar):
`YYYY-MM-DD[*HH[:MM[:SS[.fff[fff]]]][(+|-)HH:MM[:SS[.ffffff]]]]`, where
`*` is an arbitrary separator character; fields are range-checked by the
constructor, the offset by `timezone`. -/
def fromisoChars (cs : List Char) : Option ParsedDT :=
  match readNat 4 0 cs with
  | none => none
  | some (y, r) =>
  match expectChar '-' r with
  | none => none
  | some r =>
  match readNat 2 0 r with
  | none => none
  | some (mo, r) =>
  match expectChar '-' r with
  | none => none
  | some r =>
  match readNat 2 0 r with
  | none => none
  | some (dy, r) =>
  match r with
  | [] => mkDT y mo dy 0 0 0 0 none
  | _ :: r =>
  match readNat 2 0 r with
  | none => none
  | some (h, r) =>
  match r with
  | ':' :: r =>
    (match readNat 2 0 r with
    | none => none
    | some (mi, r) =>
    match r with
    | ':' :: r =>
      (match readNat 2 0 r with
      | none => none
      | some (s, r) =>
      match r with
      | '.' :: r =>
        (match readNat 6 0 r with
        | some (us, r) => timeEnd y mo dy h mi s us r
        | none =>
          match readNat 3 0 r with
          | some (ms, r) => timeEnd y mo dy h mi s (ms * 1000) r
          | none => none)
      | r => timeEnd y mo dy h mi s 0 r)
    | r => timeEnd y mo dy h mi 0 0 r)
  | r => timeEnd y mo dy h 0 0 0 r

/-- Python's `datetime.fromisoformat`, returning `none` on `ValueError`. -/
def fromisoformat (s : String) : Option ParsedDT := fromisoChars s.toList

theorem daysInMonth_le (y m : Nat) : daysInMonth y m ≤ 31 := by
  unfold daysInMonth
  split_ifs <;> omega

theorem fromisoformat_isoformat (d : DateTime) (hv : d.Valid) :
    fromisoformat d.isoformat = some ⟨d, none⟩ := by
  obtain ⟨y, mo, dy, h, mi, s, us⟩ := d
  obtain ⟨h1, h2, h3, h4, h5, h6, h7, h8, h9, h10⟩ := hv
  simp only [DateTime.Valid] at *
  have hday : dy < 100 := by
    have := daysInMonth_le y mo; simp_all; omega
  have hy : y < 10 ^ 4 := by norm_num; omega
  have hmo : mo < 10 ^ 2 := by norm_num; omega
  have hdy : dy < 10 ^ 2 := by norm_num; omega
  have hh : h < 10 ^ 2 := by norm_num; omega
  have hmi : mi < 10 ^ 2 := by norm_num; omega
  have hs : s < 10 ^ 2 := by norm_num; omega
  show fromisoChars (isoChars ⟨y, mo, dy, h, mi, s, us⟩) = _
  by_cases hus : us = 0
  · subst hus
    simp [isoChars, fromisoChars, mkDT, expectChar, timeEnd,
      readNat_pad _ _ _ _ hy, readNat_pad _ _ _ _ hmo, readNat_pad _ _ _ _ hdy,
      readNat_pad _ _ _ _ hh, readNat_pad _ _ _ _ hmi, readNat_pad_nil _ _ _ hs,
      h1, h2, h3, h4, h5, h6, h7, h8, h9]
  · have hus6 : us < 10 ^ 6 := by norm_num; omega
    simp [isoChars, fromisoChars, mkDT, expectChar, timeEnd, hus,
      readNat_pad _ _ _ _ hy, readNat_pad _ _ _ _ hmo, readNat_pad _ _ _ _ hdy,
      readNat_pad _ _ _ _ hh, readNat_pad _ _ _ _ hmi, readNat_pad _ _ _ _ hs,
      readNat_pad_nil _ _ _ hus6,
      h1, h2, h3, h4, h5, h6, h7, h8, h9, h10]

/-- Microseconds on the timeline since the calendar epoch (rata-die style
day count times the length of a day); the order of valid datetimes under
this count is exactly Python's `datetime` comparison order. -/
def DateTime.toMicros (d : DateTime) : Nat :=
  let y := d.year - 1
  let leaps := y / 4 - y / 100 + y / 400
  let dbm := (List.range (d.month - 1)).foldl (fun acc m => acc + daysInMonth d.year (m + 1)) 0
  let days := y * 365 + leaps + dbm + (d.day - 1)
  (((days * 24 + d.hour) * 60 + d.minute) * 60 + d.second) * 1000000 + d.microsecond

/-- Enum `ItemType` of `src/models/items.py`. -/
inductive ItemType where
  | PAPER
  | ARTICLE
deriving DecidableEq, Repr

/-- String tag of an `ItemType` member (its `.value`). -/
def ItemType.value : ItemType → String
  | .PAPER => "paper"
  | .ARTICLE => "article"

/-- Enum `SourceType` of `src/models/items.py`. -/
inductive SourceType where
  | SEMANTIC_SCHOLAR
  | PUBMED
  | RSS
deriving DecidableEq, Repr

/-- String tag of a `SourceType` member (its `.value`). -/
def SourceType.value : SourceType → String
  | .SEMANTIC_SCHOLAR => "semantic_scholar"
  | .PUBMED => "pubmed"
  | .RSS => "rss"

/-- Dataclass `Author` of `src/models/items.py`. -/
structure Author where
  name : String
  author_id : Option String := none
  affiliation : Option String := none
deriving DecidableEq, Repr

/-- Dataclass `DigestItem` of `src/models/items.py`.  Optional strings are
`Option String` (Python `None` ↦ `none`); `relevance_score` is the natural
number the filters actually store (`len(matched)`). -/
structure DigestItem where
  title : String
  url : String
  item_type : ItemType
  source_type : SourceType
  date_published : Option DateTime := none
  date_fetched : DateTime
  doi : Option String := none
  authors : List Author := []
  abstract : Option String := none
  journal : Option String := none
  year : Option Nat := none
  source_name : Option String := none
  excerpt : Option String := none
  relevance_score : Nat := 0
  matched_keywords : List String := []
deriving DecidableEq, Repr

/-- `DigestItem.get_unique_id`: `"doi:" + doi` when `doi` is truthy
(non-`None` and non-empty), else `"url:" + url`. -/
def DigestItem.get_unique_id (it : DigestItem) : String :=
  match it.doi with
  | some d => if d = "" then "url:" ++ it.url else "doi:" ++ d
  | none => "url:" ++ it.url

/-- One value of the `seen_items` mapping: the dict
`{"title": ..., "first_seen": ...}` written by `mark_seen`; `first_seen`
is optional because `cleanup_old` tolerates its absence. -/
structure SeenEntry where
  title : String
  first_seen : Option String := none
deriving DecidableEq, Repr

/-- The in-memory `seen_items` dict: identity → entry, in insertion order. -/
abbrev SeenMap := List (String × SeenEntry)

instance : DecidableEq SeenMap := by
  unfold SeenMap; infer_instance

/-- Python dict assignment `d[k] = v`: replaces the value in place when the
key is present, otherwise appends the binding at the end. -/
def dictAssign {β : Type} : List (String × β) → String → β → List (String × β)
  | [], k, v => [(k, v)]
  | (k', v') :: t, k, v =>
    if k' = k then (k, v) :: t else (k', v') :: dictAssign t k v

theorem lookup_dictAssign {β : Type} (l : List (String × β)) (k k' : String) (v : β) :
    List.lookup k (dictAssign l k' v) = if k = k' then some v else List.lookup k l := by
  induction l with
  | nil =>
    by_cases h : k = k'
    · subst h; simp [dictAssign, List.lookup_cons]
    · have hb : (k == k') = false := beq_eq_false_iff_ne.mpr h
      simp [dictAssign, List.lookup_cons, hb, h]
  | cons p t ih =>
    obtain ⟨k0, v0⟩ := p
    simp only [dictAssign]
    by_cases h0 : k0 = k'
    · subst h0
      simp only [if_pos rfl]
      by_cases h : k = k0
      · subst h; simp [List.lookup_cons]
      · have hb : (k == k0) = false := beq_eq_false_iff_ne.mpr h
        simp [List.lookup_cons, hb, h]
    · rw [if_neg h0]
      by_cases h : k = k0
      · subst h
        simp [List.lookup_cons, h0]
      · have hb : (k == k0) = false := beq_eq_false_iff_ne.mpr h
        simp [List.lookup_cons, hb, ih]

/-- `DeduplicationFilter.is_seen`: membership of the item's identity. -/
def isSeen (store : SeenMap) (it : DigestItem) : Bool :=
  (List.lookup it.get_unique_id store).isSome

/-- `DeduplicationFilter.mark_seen`: unconditionally stores
`{"title": item.title, "first_seen": utcnow().isoformat()}` under the
item's identity (`now` is the ambient `datetime.utcnow()`). -/
def markSeen (now : DateTime) (store : SeenMap) (it : DigestItem) : SeenMap :=
  dictAssign store it.get_unique_id ⟨it.title, some now.isoformat⟩

/-- `DeduplicationFilter.filter_new`: keep the unseen items in order,
marking each kept item seen immediately; returns the kept items and the
updated store. -/
def filterNew (now : DateTime) : SeenMap → List DigestItem → List DigestItem × SeenMap
  | store, [] => ([], store)
  | store, it :: rest =>
    if isSeen store it then filterNew now store rest
    else
      let p := filterNew now (markSeen now store it) rest
      (it :: p.1, p.2)

/-- Number of microseconds in a day (`timedelta(days=1)`). -/
def microsPerDay : Nat := 86400000000

/-- Timeline position of `utcnow() - timedelta(days=days)`. -/
def cutoffMicros (now : DateTime) (days : Nat) : Int :=
  (now.toMicros : Int) - (days : Int) * (microsPerDay : Int)

/-- Exception classes raised by the code under consideration. -/
inductive PyErr where
  | valueError
  | typeError
  | keyError
  | attributeError
deriving DecidableEq, Repr

/-- Per-entry body of the `cleanup_old` loop: a missing, empty or
unparsable (`ValueError`, swallowed) `first_seen` is skipped (`ok
false`); a string parsing to a naive datetime is compared with the naive
cutoff (`ok` of the comparison); a string parsing to an offset-aware
datetime makes `first_seen < cutoff` raise `TypeError` ("can't compare
offset-naive and offset-aware datetimes"), which the `except ValueError`
clause does not catch. -/
def entryCheck (now : DateTime) (days : Nat) (e : SeenEntry) : Except PyErr Bool :=
  match e.first_seen with
  | none => .ok false
  | some s =>
    if s = "" then .ok false
    else
      match fromisoformat s with
      | none => .ok false
      | some ⟨d, none⟩ => .ok (decide ((d.toMicros : Int) < cutoffMicros now days))
      | some ⟨_, some _⟩ => Except.error PyErr.typeError

/-- `DeduplicationFilter.cleanup_old`: check the entries in order (the
first aware timestamp raises out of the collection loop, before any
deletion happens), then delete the expired identities — on success this
keeps exactly the bindings whose check returned `false`. -/
def cleanupOld (now : DateTime) (days : Nat) : SeenMap → Except PyErr SeenMap
  | [] => .ok []
  | p :: t =>
    match entryCheck now days p.2 with
    | .error e => .error e
    | .ok b =>
      match cleanupOld now days t with
      | .error e => .error e
      | .ok t' => .ok (if b then t' else p :: t')

/-- Loop of `DeduplicationFilter.deduplicate_within_list` with its
accumulated `seen_ids` set. -/
def dedupGo (seen : List String) : List DigestItem → List DigestItem
  | [] => []
  | it :: rest =>
    if it.get_unique_id ∈ seen then dedupGo seen rest
    else it :: dedupGo (it.get_unique_id :: seen) rest

/-- `DeduplicationFilter.deduplicate_within_list`: first occurrence of
each identity wins, order preserved, persisted history untouched. -/
def deduplicateWithinList (items : List DigestItem) : List DigestItem :=
  dedupGo [] items

/-- ASCII model of the regex word character class `\w`. -/
def isWordChar (c : Char) : Bool := c.isAlphanum || c = '_'

/-- Wordness of an optional character; out-of-range positions count as
non-word, as in regex `\b` semantics. -/
def isWordOpt : Option Char → Bool
  | none => false
  | some c => isWordChar c

/-- Character just before position `i`, if any. -/
def prevChar (text : List Char) (i : Nat) : Option Char :=
  if i = 0 then none else text[i - 1]?

/-- Match of the pattern `\b<kw>\b` (with `kw` a literal, as produced by
`re.escape`) at position `i` of `text`: the literal occurs at `i` and both
ends sit at a word boundary (wordness changes across the position). -/
def matchesAt (kw text : List Char) (i : Nat) : Bool :=
  ((text.drop i).take kw.length == kw)
  && (isWordOpt (prevChar text i) != isWordOpt text[i]?)
  && (isWordOpt (prevChar text (i + kw.length)) != isWordOpt text[i + kw.length]?)

/-- `pattern.search`: the pattern `\b<kw>\b` matches somewhere in `text`. -/
def kwOccurs (kw text : List Char) : Bool :=
  (List.range (text.length + 1)).any (matchesAt kw text)

/-- Python `str.lower()` (ASCII model): lower-case every character. -/
def strLower (s : String) : String := String.mk (s.data.map Char.toLower)

/-- Python `" ".join(parts)`. -/
def intercalateSpace : List String → String
  | [] => ""
  | [s] => s
  | s :: rest => s ++ " " ++ intercalateSpace rest

/-- The `RelevanceFilter` configuration: the constructor lower-cases the
keyword list; patterns are `IGNORECASE`, so over the lower-cased search
blob they match exactly the lower-cased keyword. -/
structure RelevanceFilter where
  keywords : List String
  threshold : Nat
deriving Repr

/-- `RelevanceFilter.__init__`: stores `[kw.lower() for kw in keywords]`. -/
def mkRelevanceFilter (keywords : List String) (threshold : Nat) : RelevanceFilter :=
  ⟨keywords.map strLower, threshold⟩

/-- The lower-cased search blob of `calculate_relevance`: the truthy ones
among `title`, `excerpt`, `abstract`, joined by single spaces. -/
def itemBlob (it : DigestItem) : String :=
  let parts :=
    (if it.title = "" then [] else [it.title]) ++
    (match it.excerpt with
      | some e => if e = "" then [] else [e]
      | none => []) ++
    (match it.abstract with
      | some a => if a = "" then [] else [a]
      | none => [])
  strLower (intercalateSpace parts)

/-- `RelevanceFilter.calculate_relevance`: the matched (lower-cased)
keywords in configuration order, each tested once with a whole-word
search, and the score `len(matched)`. -/
def calculateRelevance (rf : RelevanceFilter) (it : DigestItem) : Nat × List String :=
  let text := itemBlob it
  let matched := rf.keywords.filter (fun kw => kwOccurs kw.toList text.toList)
  (matched.length, matched)

/-- `RelevanceFilter.filter_relevant`: keep the items whose score meets
the threshold, setting `relevance_score` and `matched_keywords` on each
kept item. -/
def filterRelevant (rf : RelevanceFilter) : List DigestItem → List DigestItem
  | [] => []
  | it :: rest =>
    let p := calculateRelevance rf it
    if rf.threshold ≤ p.1 then
      { it with relevance_score := p.1, matched_keywords := p.2 } :: filterRelevant rf rest
    else filterRelevant rf rest

/-- Scoring pass of `score_and_sort`: set `relevance_score` and
`matched_keywords` on an item. -/
def assignScore (rf : RelevanceFilter) (it : DigestItem) : DigestItem :=
  let p := calculateRelevance rf it
  { it with relevance_score := p.1, matched_keywords := p.2 }

/-- `x.date_published or x.date_fetched` (datetimes are always truthy). -/
def effectiveDate (it : DigestItem) : DateTime :=
  match it.date_published with
  | some d => d
  | none => it.date_fetched

/-- The Python sort key of `score_and_sort`, compared lexicographically. -/
def sortKey (it : DigestItem) : Nat × Nat :=
  (it.relevance_score, (effectiveDate it).toMicros)

/-- Lexicographic order on the sort key, as Python compares tuples. -/
def keyLE (a b : Nat × Nat) : Bool :=
  decide (a.1 < b.1) || (decide (a.1 = b.1) && decide (a.2 ≤ b.2))

/-- Comparator realising `sorted(..., reverse=True)`: descending keys. -/
def sortLE (x y : DigestItem) : Bool := keyLE (sortKey y) (sortKey x)

/-- `RelevanceFilter.score_and_sort`: score every item, then stable-sort
descending by `(relevance_score, date_published or date_fetched)`;
a stable merge sort is observationally the CPython stable sort. -/
def scoreAndSort (rf : RelevanceFilter) (items : List DigestItem) : List DigestItem :=
  (items.map (assignScore rf)).mergeSort sortLE

/-- Python runtime values appearing in the dicts that `to_dict` and
`from_dict` exchange: strings, numbers, `None`, enum members, datetimes,
`Author` objects, lists and nested dicts. -/
inductive PyVal where
  | pnull
  | pstr (s : String)
  | pnat (n : Nat)
  | pitem (t : ItemType)
  | psource (t : SourceType)
  | pdt (d : DateTime)
  | pauthor (a : Author)
  | plist (xs : List PyVal)
  | pdict (fields : List (String × PyVal))

/-- A Python dict with string keys in insertion order. -/
abbrev PyDict := List (String × PyVal)

/-- Serialization of an optional string field (`None` becomes `null`). -/
def optStrVal : Option String → PyVal
  | some s => .pstr s
  | none => .pnull

/-- Serialization of an optional int field. -/
def optNatVal : Option Nat → PyVal
  | some n => .pnat n
  | none => .pnull

/-- An optional datetime object as `asdict` leaves it (unconverted). -/
def optDTVal : Option DateTime → PyVal
  | some d => .pdt d
  | none => .pnull

/-- The dict `dataclasses.asdict` produces for an `Author`. -/
def asdictAuthor (a : Author) : PyVal :=
  .pdict [("name", .pstr a.name), ("author_id", optStrVal a.author_id),
          ("affiliation", optStrVal a.affiliation)]

/-- The dict `dataclasses.asdict` produces for a `DigestItem`: fields in
declaration order, nested dataclasses converted recursively, enums and
datetimes left as objects, `None` as `null`. -/
def asdictItem (it : DigestItem) : PyDict :=
  [("title", .pstr it.title), ("url", .pstr it.url),
   ("item_type", .pitem it.item_type), ("source_type", .psource it.source_type),
   ("date_published", optDTVal it.date_published),
   ("date_fetched", .pdt it.date_fetched),
   ("doi", optStrVal it.doi),
   ("authors", .plist (it.authors.map asdictAuthor)),
   ("abstract", optStrVal it.abstract),
   ("journal", optStrVal it.journal),
   ("year", optNatVal it.year),
   ("source_name", optStrVal it.source_name),
   ("excerpt", optStrVal it.excerpt),
   ("relevance_score", .pnat it.relevance_score),
   ("matched_keywords", .plist (it.matched_keywords.map .pstr))]

/-- `DigestItem.to_dict`: `asdict` followed by the in-place overrides of
`item_type`/`source_type` with their string tags and of the date fields
with ISO strings (`date_published` only when truthy). -/
def toDict (it : DigestItem) : PyDict :=
  let d := asdictItem it
  let d := dictAssign d "item_type" (.pstr it.item_type.value)
  let d := dictAssign d "source_type" (.pstr it.source_type.value)
  let d := match it.date_published with
    | some dp => dictAssign d "date_published" (.pstr dp.isoformat)
    | none => d
  dictAssign d "date_fetched" (.pstr it.date_fetched.isoformat)

/-- Python truthiness of a `PyVal`. -/
def pyTruthy : PyVal → Bool
  | .pnull => false
  | .pstr s => decide (s ≠ "")
  | .pnat n => decide (n ≠ 0)
  | .plist xs => ! xs.isEmpty
  | .pdict f => ! f.isEmpty
  | _ => true

/-- `ItemType(value)`: looks a string tag up among the member values and
returns an already-converted member unchanged; anything else raises
`ValueError`. -/
def pyToItemType : PyVal → Except PyErr ItemType
  | .pstr s =>
    if s = "paper" then .ok .PAPER
    else if s = "article" then .ok .ARTICLE
    else .error .valueError
  | .pitem t => .ok t
  | _ => .error .valueError

/-- `SourceType(value)`, as for `ItemType`. -/
def pyToSourceType : PyVal → Except PyErr SourceType
  | .pstr s =>
    if s = "semantic_scholar" then .ok .SEMANTIC_SCHOLAR
    else if s = "pubmed" then .ok .PUBMED
    else if s = "rss" then .ok .RSS
    else .error .valueError
  | .psource t => .ok t
  | _ => .error .valueError

/-- `datetime.fromisoformat(v)`: `ValueError` on an unparsable string,
`TypeError` on a non-string argument.  It succeeds exactly when Python's
does; the item model is naive-only (this repository's fetchers and
serializer produce only naive `utcnow()` datetimes), so for the
offset-suffixed strings Python accepts as aware datetimes the attached
offset is not retained — no claim quantifies over aware item fields. -/
def pyFromIso : PyVal → Except PyErr DateTime
  | .pstr s =>
    match fromisoformat s with
    | some p => .ok p.dt
    | none => .error .valueError
  | _ => .error .typeError

/-- Read an optional-string keyword argument. -/
def getOptStr : Option PyVal → Except PyErr (Option String)
  | none => .ok none
  | some .pnull => .ok none
  | some (.pstr s) => .ok (some s)
  | some _ => .error .typeError

/-- Read an optional-int keyword argument. -/
def getOptNat : Option PyVal → Except PyErr (Option Nat)
  | none => .ok none
  | some .pnull => .ok none
  | some (.pnat n) => .ok (some n)
  | some _ => .error .typeError

/-- Read an optional-datetime keyword argument. -/
def getOptDT : Option PyVal → Except PyErr (Option DateTime)
  | none => .ok none
  | some .pnull => .ok none
  | some (.pdt d) => .ok (some d)
  | some _ => .error .typeError

/-- A Python list comprehension `[f(x) for x in xs]` over fallible `f`. -/
def mapExcept {α β : Type} (f : α → Except PyErr β) : List α → Except PyErr (List β)
  | [] => .ok []
  | a :: t => do
    let b ← f a
    let bs ← mapExcept f t
    Except.ok (b :: bs)

/-- Read the `authors` keyword argument (default `[]`). -/
def getAuthors : Option PyVal → Except PyErr (List Author)
  | none => .ok []
  | some (.plist xs) =>
    mapExcept (fun v =>
      match v with
      | .pauthor a => Except.ok a
      | _ => Except.error PyErr.typeError) xs
  | some _ => .error .typeError

/-- Read the `matched_keywords` keyword argument (default `[]`). -/
def getStrList : Option PyVal → Except PyErr (List String)
  | none => .ok []
  | some (.plist xs) =>
    mapExcept (fun v =>
      match v with
      | .pstr s => Except.ok s
      | _ => Except.error PyErr.typeError) xs
  | some _ => .error .typeError

/-- Read the `relevance_score` keyword argument (default `0`). -/
def getScore : Option PyVal → Except PyErr Nat
  | none => .ok 0
  | some (.pnat n) => .ok n
  | some _ => .error .typeError

/-- `Author(**a)`: keyword construction from a field dict; unknown keys
raise `TypeError`, `name` is required. -/
def pyToAuthor : PyVal → Except PyErr Author
  | .pdict f =>
    if f.all (fun p => ["name", "author_id", "affiliation"].contains p.1) then
      match List.lookup "name" f with
      | some (.pstr n) => do
        let aid ← getOptStr (List.lookup "author_id" f)
        let aff ← getOptStr (List.lookup "affiliation" f)
        Except.ok ⟨n, aid, aff⟩
      | some _ => .error .typeError
      | none => .error .typeError
    else .error .typeError
  | _ => .error .typeError

/-- Field names of the `DigestItem` dataclass. -/
def itemFieldNames : List String :=
  ["title", "url", "item_type", "source_type", "date_published",
   "date_fetched", "doi", "authors", "abstract", "journal", "year",
   "source_name", "excerpt", "relevance_score", "matched_keywords"]

/-- `cls(**data)` for `DigestItem`: keyword construction with the
dataclass defaults; `date_fetched` defaults to the ambient
`datetime.utcnow()` (the `now` argument); unknown keys raise
`TypeError`. -/
def mkItem (now : DateTime) (data : PyDict) : Except PyErr DigestItem :=
  if data.all (fun p => itemFieldNames.contains p.1) then
    match List.lookup "title" data, List.lookup "url" data,
          List.lookup "item_type" data, List.lookup "source_type" data with
    | some (.pstr title), some (.pstr url), some (.pitem ty), some (.psource st) => do
      let dp ← getOptDT (List.lookup "date_published" data)
      let df ← (match List.lookup "date_fetched" data with
        | none => Except.ok now
        | some (.pdt d) => Except.ok d
        | some _ => Except.error PyErr.typeError)
      let doi ← getOptStr (List.lookup "doi" data)
      let authors ← getAuthors (List.lookup "authors" data)
      let ab ← getOptStr (List.lookup "abstract" data)
      let jr ← getOptStr (List.lookup "journal" data)
      let yr ← getOptNat (List.lookup "year" data)
      let sn ← getOptStr (List.lookup "source_name" data)
      let ex ← getOptStr (List.lookup "excerpt" data)
      let sc ← getScore (List.lookup "relevance_score" data)
      let mk ← getStrList (List.lookup "matched_keywords" data)
      Except.ok ⟨title, url, ty, st, dp, df, doi, authors, ab, jr, yr, sn, ex, sc, mk⟩
    | _, _, _, _ => .error .typeError
  else .error .typeError

/-- `DigestItem.from_dict`: converts the tag/date/author entries of its
argument dict in place (Python mutates the caller's dict), then builds the
item with `cls(**data)`; returns the mutated dict together with the item. -/
def fromDict (now : DateTime) (data : PyDict) : Except PyErr (PyDict × DigestItem) := do
  let v ← (match List.lookup "item_type" data with
    | some v => Except.ok v
    | none => Except.error PyErr.keyError)
  let ty ← pyToItemType v
  let data := dictAssign data "item_type" (.pitem ty)
  let v ← (match List.lookup "source_type" data with
    | some v => Except.ok v
    | none => Except.error PyErr.keyError)
  let st ← pyToSourceType v
  let data := dictAssign data "source_type" (.psource st)
  let data ← (match List.lookup "date_published" data with
    | some v =>
      if pyTruthy v then do
        let d ← pyFromIso v
        Except.ok (dictAssign data "date_published" (.pdt d))
      else Except.ok data
    | none => Except.ok data)
  let data ← (match List.lookup "date_fetched" data with
    | some v =>
      if pyTruthy v then do
        let d ← pyFromIso v
        Except.ok (dictAssign data "date_fetched" (.pdt d))
      else Except.ok data
    | none => Except.ok data)
  let araw := (List.lookup "authors" data).getD (.plist [])
  let as ← (match araw with
    | .plist xs => mapExcept pyToAuthor xs
    | _ => Except.error PyErr.typeError)
  let data := dictAssign data "authors" (.plist (as.map PyVal.pauthor))
  let it ← mkItem now data
  Except.ok (data, it)

/-- The dict state after `from_dict` has run on `to_dict it`: the enum
tags have become members again, the ISO strings datetimes, and the author
dicts `Author` objects. -/
def roundTripDict (it : DigestItem) : PyDict :=
  [("title", .pstr it.title), ("url", .pstr it.url),
   ("item_type", .pitem it.item_type), ("source_type", .psource it.source_type),
   ("date_published", optDTVal it.date_published),
   ("date_fetched", .pdt it.date_fetched),
   ("doi", optStrVal it.doi),
   ("authors", .plist (it.authors.map PyVal.pauthor)),
   ("abstract", optStrVal it.abstract),
   ("journal", optStrVal it.journal),
   ("year", optNatVal it.year),
   ("source_name", optStrVal it.source_name),
   ("excerpt", optStrVal it.excerpt),
   ("relevance_score", .pnat it.relevance_score),
   ("matched_keywords", .plist (it.matched_keywords.map .pstr))]

/-- JSON values as produced by `json.load`. -/
inductive Json where
  | null
  | bool (b : Bool)
  | num (n : Int)
  | str (s : String)
  | arr (xs : List Json)
  | obj (fields : List (String × Json))

/-- Python `dict.get(k, default)` on a JSON object's fields. -/
def jsonGetD (fields : List (String × Json)) (k : String) (d : Json) : Json :=
  match List.lookup k fields with
  | some v => v
  | none => d

/-- `DeduplicationFilter._load` (with `__init__`'s empty initialisation):
`fileExists` is `seen_file.exists()`, `parsed` is the outcome of
`json.load` (`none` for a `JSONDecodeError`/`IOError`, both caught).
Returns the resulting `seen_items` value, or the uncaught exception:
`data.get` on a non-dict JSON value raises `AttributeError`, which the
`except` clause does not cover. -/
def loadSeen (fileExists : Bool) (parsed : Option Json) : Except PyErr Json :=
  if fileExists then
    match parsed with
    | none => .ok (.obj [])
    | some (.obj fields) => .ok (jsonGetD fields "items" (.obj []))
    | some _ => .error .attributeError
  else .ok (.obj [])

/-- Result of the dedup/relevance slice of `run_digest`. -/
structure DigestResult where
  newPapers : List DigestItem
  newArticles : List DigestItem
  store : Except PyErr SeenMap

/-- The filtering pipeline of `run_digest` (`src/main.py`, steps 5-7):
RSS articles pass `filter_relevant` as they are fetched; then both sets
are deduplicated within themselves; then `filter_new` runs on papers and
articles against the same store; finally `cleanup_old`. -/
def runDigestCore (rf : RelevanceFilter) (store : SeenMap) (now : DateTime)
    (archiveDays : Nat) (fetchedPapers rssArticles : List DigestItem) : DigestResult :=
  let allArticles := filterRelevant rf rssArticles
  let allPapers := deduplicateWithinList fetchedPapers
  let allArticles := deduplicateWithinList allArticles
  let p := filterNew now store allPapers
  let q := filterNew now p.2 allArticles
  let finalStore := cleanupOld now archiveDays q.2
  ⟨p.1, q.1, finalStore⟩

/-- The entry whose parsable offset-aware timestamp crashes
`cleanup_old`. -/
def entryAware : SeenEntry := ⟨"Aware", some "2019-01-01T00:00:00+00:00"⟩

/-- The article pipeline in the order the specification asserts:
`deduplicateWithinList` on the fetched article set first, and
`filterRelevant` only afterwards. -/
def articlesSpecOrder (rf : RelevanceFilter) (store : SeenMap) (now : DateTime)
    (rssArticles : List DigestItem) : List DigestItem :=
  (filterNew now store (filterRelevant rf (deduplicateWithinList rssArticles))).1

theorem lookup_markSeen (now : DateTime) (store : SeenMap) (it : DigestItem) (k : String) :
    List.lookup k (markSeen now store it)
      = if k = it.get_unique_id then some ⟨it.title, some now.isoformat⟩
        else List.lookup k store :=
  lookup_dictAssign store k it.get_unique_id _

theorem isSeen_markSeen (now : DateTime) (store : SeenMap) (it x : DigestItem) :
    isSeen (markSeen now store it) x
      = if x.get_unique_id = it.get_unique_id then true else isSeen store x := by
  unfold isSeen
  rw [lookup_markSeen]
  by_cases h : x.get_unique_id = it.get_unique_id <;> simp [h]

theorem filterNew_nil (now : DateTime) (store : SeenMap) :
    filterNew now store [] = ([], store) := rfl

theorem filterNew_cons (now : DateTime) (store : SeenMap) (it : DigestItem)
    (rest : List DigestItem) :
    filterNew now store (it :: rest)
      = if isSeen store it = true then filterNew now store rest
        else (it :: (filterNew now (markSeen now store it) rest).1,
              (filterNew now (markSeen now store it) rest).2) := rfl

theorem filterNew_sublist (now : DateTime) :
    ∀ (store : SeenMap) (items : List DigestItem),
      (filterNew now store items).1.Sublist items := by
  intro store items
  induction items generalizing store with
  | nil => simp [filterNew_nil]
  | cons it rest ih =>
    rw [filterNew_cons]
    by_cases h : isSeen store it = true
    · rw [if_pos h]
      exact (ih store).cons it
    · rw [if_neg h]
      exact (ih (markSeen now store it)).cons₂ it

theorem filterNew_not_seen (now : DateTime) :
    ∀ (store : SeenMap) (items : List DigestItem) (x : DigestItem),
      x ∈ (filterNew now store items).1 → isSeen store x = false := by
  intro store items
  induction items generalizing store with
  | nil =>
    intro x hx
    rw [filterNew_nil] at hx
    simp at hx
  | cons it rest ih =>
    intro x hx
    rw [filterNew_cons] at hx
    by_cases h : isSeen store it = true
    · rw [if_pos h] at hx
      exact ih store x hx
    · rw [if_neg h] at hx
      rcases List.mem_cons.mp hx with heq | hx'
      · subst heq
        simpa using h
      · have h2 := ih (markSeen now store it) x hx'
        rw [isSeen_markSeen] at h2
        by_cases he : x.get_unique_id = it.get_unique_id
        · simp [he] at h2
        · simpa [he] using h2

theorem filterNew_pairwise (now : DateTime) :
    ∀ (store : SeenMap) (items : List DigestItem),
      (filterNew now store items).1.Pairwise
        (fun a b => a.get_unique_id ≠ b.get_unique_id) := by
  intro store items
  induction items generalizing store with
  | nil => simp [filterNew_nil]
  | cons it rest ih =>
    rw [filterNew_cons]
    by_cases h : isSeen store it = true
    · rw [if_pos h]
      exact ih store
    · rw [if_neg h]
      refine List.Pairwise.cons ?_ (ih (markSeen now store it))
      intro b hb
      have h2 := filterNew_not_seen now (markSeen now store it) rest b hb
      rw [isSeen_markSeen] at h2
      by_cases he : b.get_unique_id = it.get_unique_id
      · simp [he] at h2
      · exact fun hcontra => he (hcontra ▸ rfl)

theorem filterNew_seen_mono (now : DateTime) :
    ∀ (store : SeenMap) (items : List DigestItem) (x : DigestItem),
      isSeen store x = true → isSeen (filterNew now store items).2 x = true := by
  intro store items
  induction items generalizing store with
  | nil =>
    intro x hx
    rw [filterNew_nil]
    exact hx
  | cons it rest ih =>
    intro x hx
    rw [filterNew_cons]
    by_cases h : isSeen store it = true
    · rw [if_pos h]
      exact ih store x hx
    · rw [if_neg h]
      refine ih (markSeen now store it) x ?_
      rw [isSeen_markSeen]
      by_cases he : x.get_unique_id = it.get_unique_id <;> simp [he, hx]

theorem filterNew_all_seen (now : DateTime) :
    ∀ (store : SeenMap) (items : List DigestItem) (x : DigestItem),
      x ∈ items → isSeen (filterNew now store items).2 x = true := by
  intro store items
  induction items generalizing store with
  | nil => simp
  | cons it rest ih =>
    intro x hx
    rw [filterNew_cons]
    by_cases h : isSeen store it = true
    · rw [if_pos h]
      rcases List.mem_cons.mp hx with heq | hx'
      · subst heq
        exact filterNew_seen_mono now store rest x h
      · exact ih store x hx'
    · rw [if_neg h]
      rcases List.mem_cons.mp hx with heq | hx'
      · subst heq
        refine filterNew_seen_mono now (markSeen now store x) rest x ?_
        rw [isSeen_markSeen]
        simp
      · exact ih (markSeen now store it) x hx'

theorem filterNew_of_all_seen (now : DateTime) :
    ∀ (store : SeenMap) (items : List DigestItem),
      (∀ x ∈ items, isSeen store x = true) → (filterNew now store items).1 = [] := by
  intro store items
  induction items generalizing store with
  | nil => simp [filterNew_nil]
  | cons it rest ih =>
    intro hall
    rw [filterNew_cons, if_pos (hall it (List.mem_cons_self it rest))]
    exact ih store (fun x hx => hall x (List.mem_cons_of_mem it hx))

theorem filterNew_fresh (now : DateTime) :
    ∀ (store : SeenMap) (items : List DigestItem),
      (∀ x ∈ items, isSeen store x = false) →
      items.Pairwise (fun a b => a.get_unique_id ≠ b.get_unique_id) →
      (filterNew now store items).1 = items := by
  intro store items
  induction items generalizing store with
  | nil => simp [filterNew_nil]
  | cons it rest ih =>
    intro hfresh hpair
    have h : ¬ isSeen store it = true := by
      simp [hfresh it (List.mem_cons_self it rest)]
    rw [filterNew_cons, if_neg h]
    rcases List.pairwise_cons.mp hpair with ⟨hhead, htail⟩
    have htl : (filterNew now (markSeen now store it) rest).1 = rest := by
      refine ih (markSeen now store it) ?_ htail
      intro x hx
      rw [isSeen_markSeen]
      have hne : x.get_unique_id ≠ it.get_unique_id := fun hc => hhead x hx hc.symm
      simp [hne, hfresh x (List.mem_cons_of_mem it hx)]
    simp [htl]

theorem filterNew_preserves (now : DateTime) :
    ∀ (store : SeenMap) (items : List DigestItem) (k : String),
      (List.lookup k store).isSome →
      List.lookup k (filterNew now store items).2 = List.lookup k store := by
  intro store items
  induction items generalizing store with
  | nil =>
    intro k _
    rw [filterNew_nil]
  | cons it rest ih =>
    intro k hk
    rw [filterNew_cons]
    by_cases h : isSeen store it = true
    · rw [if_pos h]
      exact ih store k hk
    · rw [if_neg h]
      have hne : k ≠ it.get_unique_id := by
        intro hc
        subst hc
        unfold isSeen at h
        simp [hk] at h
      have hms : List.lookup k (markSeen now store it) = List.lookup k store := by
        rw [lookup_markSeen, if_neg hne]
      rw [← hms] at hk ⊢
      exact ih (markSeen now store it) k hk

/-- A sample datetime used by concrete witnesses. -/
def dtA : DateTime := ⟨2020, 1, 1, 0, 0, 0, 0⟩

/-- A later sample datetime used by concrete witnesses. -/
def dtB : DateTime := ⟨2021, 6, 15, 12, 30, 45, 0⟩

/-- A sample article item used by concrete witnesses. -/
def itemA : DigestItem :=
  { title := "T", url := "u", item_type := .ARTICLE, source_type := .RSS,
    date_fetched := dtA }

/-- A second sample item with a distinct identity. -/
def itemB : DigestItem :=
  { title := "S", url := "v", item_type := .PAPER, source_type := .PUBMED,
    date_fetched := dtA, doi := some "10.1/x" }

/-- C1: the claim states that a second `markSeen` on an already-present
identity leaves the stored `firstSeenTimestamp` unchanged; on the code a
second call at a later clock value replaces it, so the stored entry
differs from the one after the first call. -/
theorem C1_markSeen_counterexample :
    List.lookup (DigestItem.get_unique_id itemA)
        (markSeen dtB (markSeen dtA [] itemA) itemA)
      ≠ List.lookup (DigestItem.get_unique_id itemA) (markSeen dtA [] itemA) := by
  decide

/-- C1 (amended): `mark_seen` unconditionally overwrites the stored entry
with the item's title and the current call's timestamp — re-marking an
already-seen identity resets the retention clock.  The preservation the
spec intends holds one level up: `filter_new` never calls `mark_seen` for
a seen identity, so it leaves every pre-existing entry (in particular its
`first_seen`) untouched. -/
theorem C1_markSeen_overwrites_filterNew_preserves :
    (∀ (now : DateTime) (store : SeenMap) (it : DigestItem),
      List.lookup it.get_unique_id (markSeen now store it)
        = some ⟨it.title, some now.isoformat⟩) ∧
    (∀ (now : DateTime) (store : SeenMap) (items : List DigestItem) (k : String),
      (List.lookup k store).isSome →
      List.lookup k (filterNew now store items).2 = List.lookup k store) := by
  constructor
  · intro now store it
    rw [lookup_markSeen, if_pos rfl]
  · exact fun now => filterNew_preserves now

/-- Witness for C1 (amended) at concrete inputs. -/
theorem C1_witness :
    List.lookup (DigestItem.get_unique_id itemA) (markSeen dtA [] itemA)
        = some ⟨"T", some (DateTime.isoformat dtA)⟩ ∧
    List.lookup (DigestItem.get_unique_id itemA)
        (filterNew dtB (markSeen dtA [] itemA) [itemA, itemB]).2
      = List.lookup (DigestItem.get_unique_id itemA) (markSeen dtA [] itemA) := by
  constructor
  · exact C1_markSeen_overwrites_filterNew_preserves.1 dtA [] itemA
  · exact C1_markSeen_overwrites_filterNew_preserves.2 dtB (markSeen dtA [] itemA)
      [itemA, itemB] (DigestItem.get_unique_id itemA) (by decide)

/-- C2: `filter_new` returns a subsequence of its input (order preserved)
with pairwise distinct identities; every returned item was unseen in the
incoming store; afterwards every processed item's identity is seen; an
identity-unique batch with no pre-seen identity is returned whole; and an
immediately repeated call on the same batch returns the empty list. -/
theorem C2_filterNew_spec :
    (∀ (now : DateTime) (store : SeenMap) (items : List DigestItem),
      (filterNew now store items).1.Sublist items) ∧
    (∀ (now : DateTime) (store : SeenMap) (items : List DigestItem),
      (filterNew now store items).1.Pairwise
        (fun a b => a.get_unique_id ≠ b.get_unique_id)) ∧
    (∀ (now : DateTime) (store : SeenMap) (items : List DigestItem) (x : DigestItem),
      x ∈ (filterNew now store items).1 → isSeen store x = false) ∧
    (∀ (now : DateTime) (store : SeenMap) (items : List DigestItem) (x : DigestItem),
      x ∈ items → isSeen (filterNew now store items).2 x = true) ∧
    (∀ (now : DateTime) (store : SeenMap) (items : List DigestItem),
      (∀ x ∈ items, isSeen store x = false) →
      items.Pairwise (fun a b => a.get_unique_id ≠ b.get_unique_id) →
      (filterNew now store items).1 = items) ∧
    (∀ (now1 now2 : DateTime) (store : SeenMap) (items : List DigestItem),
      (filterNew now2 (filterNew now1 store items).2 items).1 = []) := by
  refine ⟨fun now => filterNew_sublist now, fun now => filterNew_pairwise now,
    fun now => filterNew_not_seen now, fun now => filterNew_all_seen now,
    fun now => filterNew_fresh now, ?_⟩
  intro now1 now2 store items
  exact filterNew_of_all_seen now2 _ items
    (fun x hx => filterNew_all_seen now1 store items x hx)

/-- Witness for C2 at concrete inputs: a fresh identity-unique batch is
returned whole by the first call and empty by the repeated call. -/
theorem C2_witness :
    (filterNew dtA [] [itemA, itemB]).1 = [itemA, itemB] ∧
    (filterNew dtB (filterNew dtA [] [itemA, itemB]).2 [itemA, itemB]).1 = [] ∧
    isSeen (filterNew dtA [] [itemA, itemB]).2 itemA = true := by
  refine ⟨?_, ?_, ?_⟩
  · exact C2_filterNew_spec.2.2.2.2.1 dtA [] [itemA, itemB] (by decide) (by decide)
  · exact C2_filterNew_spec.2.2.2.2.2 dtA dtB [] [itemA, itemB]
  · exact C2_filterNew_spec.2.2.2.1 dtA [] [itemA, itemB] itemA (by decide)

theorem entryCheck_eq_error (now : DateTime) (days : Nat) (e : SeenEntry)
    (h : (entryCheck now days e).isOk = false) :
    entryCheck now days e = Except.error PyErr.typeError := by
  unfold entryCheck at *
  rcases hfs : e.first_seen with _ | s
  · simp_all [Except.isOk, Except.toBool]
  · by_cases hs : s = ""
    · simp_all [Except.isOk, Except.toBool]
    · rcases hp : fromisoformat s with _ | p
      · simp_all [Except.isOk, Except.toBool]
      · obtain ⟨d, tz⟩ := p
        rcases tz with _ | off
        · simp_all [Except.isOk, Except.toBool]
        · simp_all

theorem cleanupOld_ok (now : DateTime) (days : Nat) :
    ∀ (store : SeenMap), (store.map Prod.fst).Nodup →
      (∀ p ∈ store, (entryCheck now days p.2).isOk = true) →
      ∃ store', cleanupOld now days store = Except.ok store' ∧
        ∀ uid : String,
          List.lookup uid store'
            = match List.lookup uid store with
              | some e =>
                (match entryCheck now days e with
                 | .ok true => none
                 | _ => some e)
              | none => none := by
  intro store
  induction store with
  | nil =>
    intro _ _
    exact ⟨[], rfl, fun uid => by simp⟩
  | cons q t ih =>
    intro hnd hall
    obtain ⟨k0, e0⟩ := q
    simp only [List.map_cons, List.nodup_cons] at hnd
    obtain ⟨hk0, hndt⟩ := hnd
    have hok := hall (k0, e0) (List.mem_cons_self _ _)
    rcases hb : entryCheck now days e0 with err | b
    · rw [hb] at hok
      simp [Except.isOk, Except.toBool] at hok
    · obtain ⟨t', ht', hlk⟩ :=
        ih hndt (fun p hp => hall p (List.mem_cons_of_mem _ hp))
      refine ⟨if b then t' else (k0, e0) :: t', ?_, ?_⟩
      · simp [cleanupOld, hb, ht']
      · intro uid
        by_cases huid : uid = k0
        · subst huid
          have hnone : List.lookup uid t = none := by
            rw [List.lookup_eq_none_iff]
            intro a ha
            rw [bne_iff_ne]
            intro hka
            exact hk0 (hka ▸ List.mem_map_of_mem Prod.fst ha)
          rcases b
          · simp [List.lookup_cons, hb]
          · simp [List.lookup_cons, hb, hlk uid, hnone]
        · have hbq : (uid == k0) = false := beq_eq_false_iff_ne.mpr huid
          rcases b <;> simp [List.lookup_cons, hbq, hlk uid]

theorem cleanupOld_error (now : DateTime) (days : Nat) :
    ∀ store : SeenMap, (∃ p ∈ store, (entryCheck now days p.2).isOk = false) →
      cleanupOld now days store = Except.error PyErr.typeError := by
  intro store
  induction store with
  | nil =>
    rintro ⟨p, hp, _⟩
    simp at hp
  | cons q t ih =>
    rintro ⟨p, hp, hfail⟩
    rcases List.mem_cons.mp hp with heq | hmem
    · subst heq
      have herr := entryCheck_eq_error now days p.2 hfail
      simp [cleanupOld, herr]
    · rcases hb : entryCheck now days q.2 with err | b
      · have herr := entryCheck_eq_error now days q.2 (by simp [hb, Except.isOk, Except.toBool])
        simp [cleanupOld, herr]
      · have hrec := ih ⟨p, hmem, hfail⟩
        simp [cleanupOld, hb, hrec]

/-- C3 (amended): with distinct keys (a Python dict), when every
timestamp in the store is missing, empty, unparsable, or parses to a
naive datetime, `cleanup_old` completes and deletes exactly the entries
whose `first_seen` parses to a naive datetime strictly before
`now - days`, leaving every other binding (missing, empty or unparsable
timestamps included) in place; but an entry whose timestamp parses to an
offset-aware datetime makes the aware-vs-naive comparison raise an
uncaught `TypeError`, failing the whole pass without removing
anything. -/
theorem C3_cleanupOld_spec :
    ∀ (now : DateTime) (days : Nat) (store : SeenMap) (uid : String),
      (store.map Prod.fst).Nodup →
      ((∀ p ∈ store, (entryCheck now days p.2).isOk = true) →
        ∃ store', cleanupOld now days store = Except.ok store' ∧
          (∀ e : SeenEntry, List.lookup uid store = some e →
            entryCheck now days e = Except.ok true →
            List.lookup uid store' = none) ∧
          (∀ e : SeenEntry, List.lookup uid store = some e →
            entryCheck now days e = Except.ok false →
            List.lookup uid store' = some e) ∧
          (List.lookup uid store = none → List.lookup uid store' = none)) ∧
      (∀ e : SeenEntry, entryCheck now days e = Except.ok true ↔
        ∃ s, e.first_seen = some s ∧ s ≠ "" ∧
          ∃ d, fromisoformat s = some ⟨d, none⟩ ∧
            (d.toMicros : Int) < cutoffMicros now days) ∧
      (∀ e : SeenEntry,
        (e.first_seen = none ∨ e.first_seen = some "" ∨
          (∃ s, e.first_seen = some s ∧ fromisoformat s = none)) →
        entryCheck now days e = Except.ok false) ∧
      (∀ e : SeenEntry, entryCheck now days e = Except.error PyErr.typeError ↔
        ∃ s, e.first_seen = some s ∧ s ≠ "" ∧
          ∃ d off, fromisoformat s = some ⟨d, some off⟩) ∧
      ((∃ p ∈ store, (entryCheck now days p.2).isOk = false) →
        cleanupOld now days store = Except.error PyErr.typeError) := by
  intro now days store uid hnd
  refine ⟨?_, ?_, ?_, ?_, fun h => cleanupOld_error now days store h⟩
  · intro hall
    obtain ⟨store', hok, hlk⟩ := cleanupOld_ok now days store hnd hall
    refine ⟨store', hok, ?_, ?_, ?_⟩
    · intro e he hchk
      rw [hlk uid]
      simp [he, hchk]
    · intro e he hchk
      rw [hlk uid]
      simp [he, hchk]
    · intro he
      rw [hlk uid]
      simp [he]
  · intro e
    rcases hfs : e.first_seen with _ | s
    · simp [entryCheck, hfs]
    · by_cases hs : s = ""
      · subst hs
        simp [entryCheck, hfs]
      · rcases hparse : fromisoformat s with _ | p
        · simp [entryCheck, hfs, hs, hparse]
        · obtain ⟨d, tz⟩ := p
          rcases tz with _ | off
          · simp [entryCheck, hfs, hs, hparse]
          · simp [entryCheck, hfs, hs, hparse]
  · intro e hdisj
    rcases hdisj with hfs | hfs | ⟨s, hfs, hparse⟩
    · simp [entryCheck, hfs]
    · simp [entryCheck, hfs]
    · by_cases hs : s = ""
      · simp [entryCheck, hfs, hs]
      · simp [entryCheck, hfs, hs, hparse]
  · intro e
    rcases hfs : e.first_seen with _ | s
    · simp [entryCheck, hfs]
    · by_cases hs : s = ""
      · subst hs
        simp [entryCheck, hfs]
      · rcases hparse : fromisoformat s with _ | p
        · simp [entryCheck, hfs, hs, hparse]
        · obtain ⟨d, tz⟩ := p
          rcases tz with _ | off
          · simp [entryCheck, hfs, hs, hparse]
          · simp [entryCheck, hfs, hs, hparse]

/-- An entry with a parsable naive old timestamp, for the C3 witness. -/
def entryOld : SeenEntry := ⟨"Old", some "2020-01-01T00:00:00"⟩

/-- An entry with a corrupt timestamp, for the C3 witness. -/
def entryBad : SeenEntry := ⟨"Bad", some "not-a-date"⟩

/-- An entry with a missing timestamp, for the C3 witness. -/
def entryNoTs : SeenEntry := ⟨"NoTs", none⟩

/-- The seen-store used by the C3 witness. -/
def store3 : SeenMap :=
  [("doi:10.1/x", entryOld), ("url:u", entryBad), ("url:v", entryNoTs)]

/-- C3: the claim states that `cleanup_old` always completes, removing
exactly the old parsable entries and leaving every missing or unparsable
timestamp untouched; but the ASCII timestamp
"2019-01-01T00:00:00+00:00" is parsable by Python 3.7+ (to an
offset-aware datetime), and comparing it with the naive cutoff makes
`cleanup_old` raise a `TypeError` that `except ValueError` does not
catch — the pass fails without removing or keeping anything. -/
theorem C3_counterexample :
    cleanupOld dtB 90 [("url:w", entryAware)] = Except.error PyErr.typeError := rfl

/-- Witness for C3 (amended) at concrete inputs: with `now` in 2021 and
a 90-day window, the naive 2020 entry is removed while the corrupt and
missing timestamps survive, and a store holding a parsable aware
timestamp makes the pass raise. -/
theorem C3_witness :
    (∃ store', cleanupOld dtB 90 store3 = Except.ok store' ∧
      List.lookup "doi:10.1/x" store' = none ∧
      List.lookup "url:u" store' = some entryBad ∧
      List.lookup "url:v" store' = some entryNoTs) ∧
    cleanupOld dtB 90 [("url:w", entryAware)] = Except.error PyErr.typeError := by
  constructor
  · obtain ⟨s1, hok1, ha1, _, _⟩ :=
      (C3_cleanupOld_spec dtB 90 store3 "doi:10.1/x" (by decide)).1 (by decide)
    obtain ⟨s2, hok2, _, hb2, _⟩ :=
      (C3_cleanupOld_spec dtB 90 store3 "url:u" (by decide)).1 (by decide)
    obtain ⟨s3, hok3, _, hc3, _⟩ :=
      (C3_cleanupOld_spec dtB 90 store3 "url:v" (by decide)).1 (by decide)
    have h12 : s1 = s2 := by
      rw [hok1] at hok2
      injection hok2
    have h13 : s1 = s3 := by
      rw [hok1] at hok3
      injection hok3
    refine ⟨s1, hok1, ?_, ?_, ?_⟩
    · exact ha1 entryOld (by rfl) (by rfl)
    · rw [h12]
      exact hb2 entryBad (by rfl) (by rfl)
    · rw [h13]
      exact hc3 entryNoTs (by rfl) (by rfl)
  · exact (C3_cleanupOld_spec dtB 90 [("url:w", entryAware)] "url:w" (by decide)).2.2.2.2
      ⟨("url:w", entryAware), by decide, by decide⟩

/-- C4: the deduplication identity is `"doi:" + doi` exactly when `doi`
is truthy (present and non-empty) and `"url:" + url` otherwise; it
depends on no field but `doi` and `url`; and items sharing a non-empty
DOI share the identity regardless of their URLs. -/
theorem C4_identity_spec :
    (∀ (it : DigestItem) (d : String), it.doi = some d → d ≠ "" →
      it.get_unique_id = "doi:" ++ d) ∧
    (∀ it : DigestItem, it.doi = none ∨ it.doi = some "" →
      it.get_unique_id = "url:" ++ it.url) ∧
    (∀ it jt : DigestItem, it.doi = jt.doi → it.url = jt.url →
      it.get_unique_id = jt.get_unique_id) ∧
    (∀ (it jt : DigestItem) (d : String), d ≠ "" →
      it.doi = some d → jt.doi = some d →
      it.get_unique_id = jt.get_unique_id) := by
  refine ⟨?_, ?_, ?_, ?_⟩
  · intro it d hd hne
    unfold DigestItem.get_unique_id
    rw [hd]
    simp [hne]
  · intro it hd
    unfold DigestItem.get_unique_id
    rcases hd with hd | hd
    · rw [hd]
    · rw [hd]
      simp
  · intro it jt hdoi hurl
    unfold DigestItem.get_unique_id
    rw [hdoi, hurl]
  · intro it jt d hne hd1 hd2
    unfold DigestItem.get_unique_id
    rw [hd1, hd2]
    simp [hne]

/-- Witness for C4 at concrete inputs: same DOI with different URLs and
different titles gives the same identity; an item without a DOI falls
back to its URL. -/
theorem C4_witness :
    DigestItem.get_unique_id itemB = "doi:" ++ "10.1/x" ∧
    DigestItem.get_unique_id itemA = "url:" ++ "u" ∧
    DigestItem.get_unique_id { itemB with url := "other", title := "X" }
      = DigestItem.get_unique_id itemB := by
  refine ⟨?_, ?_, ?_⟩
  · exact C4_identity_spec.1 itemB "10.1/x" (by decide) (by decide)
  · exact C4_identity_spec.2.1 itemA (Or.inl (by decide))
  · exact C4_identity_spec.2.2.2 { itemB with url := "other", title := "X" } itemB
      "10.1/x" (by decide) (by decide) (by decide)

/-- An article whose text contains "citizen" but no whole word "zen". -/
def zenItemA : DigestItem :=
  { title := "The Citizen Kane", url := "z1", item_type := .ARTICLE,
    source_type := .RSS, date_fetched := dtA }

/-- An article whose title contains the whole word "Zen" (capitalised). -/
def zenItemB : DigestItem :=
  { title := "Zen practice", url := "z2", item_type := .ARTICLE,
    source_type := .RSS, date_fetched := dtA }

/-- An article mentioning "zen" twice, to separate distinct-keyword
counting from occurrence counting. -/
def zenItemC : DigestItem :=
  { title := "zen and zen again", url := "z3", item_type := .ARTICLE,
    source_type := .RSS, date_fetched := dtA }

/-- C5: `calculate_relevance` filters the (lower-cased) configured
keywords by a whole-word search over the lower-cased blob of the present
text fields, so `matchedKeywords` is the configuration order restricted to
matches and the score counts distinct keywords; concretely, "zen" does
not match inside "citizen", does match "Zen practice" case-insensitively,
and two occurrences still count once. -/
theorem C5_calculateRelevance_spec :
    (∀ (kws : List String) (thr : Nat) (it : DigestItem),
      calculateRelevance (mkRelevanceFilter kws thr) it
        = (((kws.map strLower).filter
              (fun kw => kwOccurs kw.toList (itemBlob it).toList)).length,
           (kws.map strLower).filter
              (fun kw => kwOccurs kw.toList (itemBlob it).toList))) ∧
    (∀ (rf : RelevanceFilter) (it : DigestItem),
      (calculateRelevance rf it).2.Sublist rf.keywords) ∧
    itemBlob { zenItemA with title := "A", excerpt := some "B", abstract := some "C" }
      = "a b c" ∧
    itemBlob { zenItemA with title := "A", excerpt := none, abstract := some "C" }
      = "a c" ∧
    calculateRelevance (mkRelevanceFilter ["zen"] 1) zenItemA = (0, []) ∧
    calculateRelevance (mkRelevanceFilter ["zen"] 1) zenItemB = (1, ["zen"]) ∧
    calculateRelevance (mkRelevanceFilter ["zen"] 1) zenItemC = (1, ["zen"]) ∧
    calculateRelevance (mkRelevanceFilter ["meditation", "mindfulness"] 1)
        { zenItemA with title := "A Study of Meditation Retreats" }
      = (1, ["meditation"]) := by
  refine ⟨?_, ?_, ?_, ?_, ?_, ?_, ?_, ?_⟩
  · intro kws thr it
    rfl
  · intro rf it
    exact List.filter_sublist rf.keywords
  · decide
  · decide
  · decide
  · decide
  · decide
  · decide

theorem keyLE_total (a b : Nat × Nat) : (keyLE a b || keyLE b a) = true := by
  obtain ⟨a1, a2⟩ := a
  obtain ⟨b1, b2⟩ := b
  simp [keyLE]
  omega

theorem keyLE_trans (a b c : Nat × Nat) (h1 : keyLE a b = true) (h2 : keyLE b c = true) :
    keyLE a c = true := by
  obtain ⟨a1, a2⟩ := a
  obtain ⟨b1, b2⟩ := b
  obtain ⟨c1, c2⟩ := c
  simp [keyLE] at *
  omega

theorem keyLE_refl (a : Nat × Nat) : keyLE a a = true := by
  simp [keyLE]

theorem sortLE_total (x y : DigestItem) : (sortLE x y || sortLE y x) = true :=
  keyLE_total (sortKey y) (sortKey x)

theorem sortLE_trans (x y z : DigestItem) (h1 : sortLE x y = true)
    (h2 : sortLE y z = true) : sortLE x z = true :=
  keyLE_trans (sortKey z) (sortKey y) (sortKey x) h2 h1

theorem calculateRelevance_assignScore (rf rf' : RelevanceFilter) (it : DigestItem) :
    calculateRelevance rf (assignScore rf' it) = calculateRelevance rf it := rfl

/-- C6: `score_and_sort` returns a permutation of the input with every
item (re)scored unconditionally, sorted pairwise-descending by the
lexicographic `(relevance_score, effectiveDate)` key, and stably: a pair
with equal keys appearing in input order reappears in that order. -/
theorem C6_scoreAndSort_spec :
    ∀ (rf : RelevanceFilter) (items : List DigestItem),
      (scoreAndSort rf items).Perm (items.map (assignScore rf)) ∧
      (scoreAndSort rf items).Pairwise (fun a b => sortLE a b = true) ∧
      (∀ a b : DigestItem, sortLE a b = true ↔
        ((sortKey b).1 < (sortKey a).1 ∨
         ((sortKey b).1 = (sortKey a).1 ∧ (sortKey b).2 ≤ (sortKey a).2))) ∧
      (∀ x ∈ scoreAndSort rf items,
        x.relevance_score = (calculateRelevance rf x).1 ∧
        x.matched_keywords = (calculateRelevance rf x).2) ∧
      (∀ a b : DigestItem, sortKey a = sortKey b →
        [a, b].Sublist (items.map (assignScore rf)) →
        [a, b].Sublist (scoreAndSort rf items)) := by
  intro rf items
  refine ⟨?_, ?_, ?_, ?_, ?_⟩
  · exact List.mergeSort_perm _ _
  · exact List.sorted_mergeSort (fun a b c => sortLE_trans a b c)
      (fun a b => sortLE_total a b) _
  · intro a b
    unfold sortLE keyLE
    simp
  · intro x hx
    unfold scoreAndSort at hx
    rw [List.mem_mergeSort] at hx
    obtain ⟨y, _, rfl⟩ := List.mem_map.mp hx
    refine ⟨?_, ?_⟩
    · rw [calculateRelevance_assignScore]
      rfl
    · rw [calculateRelevance_assignScore]
      rfl
  · intro a b hkey hsub
    refine List.pair_sublist_mergeSort (fun a b c => sortLE_trans a b c)
      (fun a b => sortLE_total a b) ?_ hsub
    unfold sortLE
    rw [hkey]
    exact keyLE_refl _

/-- Two items with equal score and equal effective date, for the C6
stability witness. -/
def tieItemA : DigestItem :=
  { title := "first", url := "t1", item_type := .ARTICLE,
    source_type := .RSS, date_fetched := dtA }

/-- The second tied item of the C6 witness. -/
def tieItemB : DigestItem :=
  { title := "second", url := "t2", item_type := .ARTICLE,
    source_type := .RSS, date_fetched := dtA }

/-- The keyword configuration shared by the concrete pipeline runs. -/
def rfZen : RelevanceFilter := mkRelevanceFilter ["zen"] 1

/-- Witness for C6 at concrete inputs: two tied items keep their input
order through `score_and_sort`. -/
theorem C6_witness :
    [assignScore rfZen tieItemA, assignScore rfZen tieItemB].Sublist
      (scoreAndSort rfZen [tieItemA, tieItemB]) := by
  refine (C6_scoreAndSort_spec rfZen [tieItemA, tieItemB]).2.2.2.2
    (assignScore rfZen tieItemA) (assignScore rfZen tieItemB) (by decide) (by decide)

theorem dedupGo_sublist : ∀ (seen : List String) (items : List DigestItem),
    (dedupGo seen items).Sublist items := by
  intro seen items
  induction items generalizing seen with
  | nil => simp [dedupGo]
  | cons it rest ih =>
    unfold dedupGo
    by_cases h : it.get_unique_id ∈ seen
    · simp only [h, if_true]
      exact (ih seen).cons it
    · simp only [h, if_false]
      exact (ih (it.get_unique_id :: seen)).cons₂ it

/-- An article sharing `itemA`'s URL identity but matching "zen". -/
def artZ : DigestItem :=
  { title := "Zen practice", url := "u", item_type := .ARTICLE,
    source_type := .RSS, date_fetched := dtA }

/-- C7: the claim orders step 3 (within-batch dedup of the articles)
strictly before step 4 (`filterRelevant`); on the code the relevance
filter runs first, and with two same-identity articles of different
relevance the two orders produce different results. -/
theorem C7_counterexample :
    (runDigestCore rfZen [] dtA 90 [] [itemA, artZ]).newArticles
      ≠ articlesSpecOrder rfZen [] dtA [itemA, artZ] := by
  decide

/-- C7 (amended): in `run_digest` the article set passes
`filter_relevant` first and `deduplicate_within_list` only afterwards,
then `filter_new`; the paper set is deduplicated and history-filtered
without any relevance gating, every returned paper being an element of
the fetched input. -/
theorem C7_pipeline_order :
    ∀ (rf : RelevanceFilter) (store : SeenMap) (now : DateTime) (days : Nat)
      (papers rss : List DigestItem),
      (runDigestCore rf store now days papers rss).newArticles
        = (filterNew now (filterNew now store (deduplicateWithinList papers)).2
            (deduplicateWithinList (filterRelevant rf rss))).1 ∧
      (runDigestCore rf store now days papers rss).newPapers
        = (filterNew now store (deduplicateWithinList papers)).1 ∧
      (∀ x ∈ (runDigestCore rf store now days papers rss).newPapers, x ∈ papers) := by
  intro rf store now days papers rss
  refine ⟨rfl, rfl, ?_⟩
  intro x hx
  have h1 : x ∈ (filterNew now store (deduplicateWithinList papers)).1 := hx
  have h2 : x ∈ deduplicateWithinList papers :=
    (filterNew_sublist now store (deduplicateWithinList papers)).subset h1
  exact (dedupGo_sublist [] papers).subset h2

/-- Witness for C7 (amended) at concrete inputs: a fetched paper set
passes through untouched by relevance filtering. -/
theorem C7_witness :
    (runDigestCore rfZen [] dtA 90 [itemB] []).newPapers = [itemB] ∧
    (∀ x ∈ (runDigestCore rfZen [] dtA 90 [itemB] []).newPapers, x ∈ [itemB]) := by
  refine ⟨?_, (C7_pipeline_order rfZen [] dtA 90 [itemB] []).2.2⟩
  rw [(C7_pipeline_order rfZen [] dtA 90 [itemB] []).2.1]
  decide

/-- C8: the claim states that construction with a missing or corrupt
seen-items file never raises; a file whose contents parse as JSON but not
as an object (here a JSON array) makes `data.get("items", {})` raise an
`AttributeError` that the `except (JSONDecodeError, IOError)` clause does
not catch. -/
theorem C8_counterexample :
    loadSeen true (some (Json.arr [])) = Except.error PyErr.attributeError := rfl

/-- C8 (amended): a missing file, an unreadable file or contents that
fail JSON parsing never raise — the store starts as the empty mapping —
and a JSON object yields its `items` member (defaulting to empty); only
JSON whose top level is not an object escapes the handler. -/
theorem C8_load_spec :
    (∀ parsed : Option Json, loadSeen false parsed = Except.ok (Json.obj [])) ∧
    loadSeen true none = Except.ok (Json.obj []) ∧
    (∀ fields : List (String × Json),
      loadSeen true (some (Json.obj fields))
        = Except.ok (jsonGetD fields "items" (Json.obj []))) := by
  refine ⟨?_, rfl, ?_⟩
  · intro parsed
    rfl
  · intro fields
    rfl

theorem isoChars_ne_nil (d : DateTime) : isoChars d ≠ [] := by
  unfold isoChars
  simp [pad]

theorem isoformat_ne_empty (d : DateTime) : d.isoformat ≠ "" := by
  intro h
  have h2 := congrArg String.data h
  simp only [DateTime.isoformat] at h2
  exact isoChars_ne_nil d h2

theorem pyTruthy_iso (d : DateTime) : pyTruthy (.pstr d.isoformat) = true := by
  simp [pyTruthy, isoformat_ne_empty d]

theorem pyFromIso_iso (d : DateTime) (h : d.Valid) :
    pyFromIso (.pstr d.isoformat) = .ok d := by
  simp [pyFromIso, fromisoformat_isoformat d h]

theorem pyToItemType_value (t : ItemType) :
    pyToItemType (.pstr t.value) = .ok t := by
  cases t <;> rfl

theorem pyToSourceType_value (t : SourceType) :
    pyToSourceType (.pstr t.value) = .ok t := by
  cases t <;> rfl

theorem pyToAuthor_asdict (a : Author) : pyToAuthor (asdictAuthor a) = .ok a := by
  obtain ⟨n, aid, aff⟩ := a
  rcases aid with _ | aid <;> rcases aff with _ | aff <;> rfl

theorem exceptBind_ok {α β : Type} (a : α) (f : α → Except PyErr β) :
    (Except.ok a : Except PyErr α) >>= f = f a := rfl

theorem mapExcept_pyToAuthor (as : List Author) :
    mapExcept pyToAuthor (as.map asdictAuthor) = Except.ok as := by
  induction as with
  | nil => rfl
  | cons a t ih =>
    simp [mapExcept, pyToAuthor_asdict a, ih]
    rfl

theorem getOptStr_optStrVal (x : Option String) :
    getOptStr (some (optStrVal x)) = .ok x := by
  cases x <;> rfl

theorem getOptNat_optNatVal (x : Option Nat) :
    getOptNat (some (optNatVal x)) = .ok x := by
  cases x <;> rfl

theorem getOptDT_optDTVal (x : Option DateTime) :
    getOptDT (some (optDTVal x)) = .ok x := by
  cases x <;> rfl

theorem getAuthors_pauthor (as : List Author) :
    getAuthors (some (.plist (as.map PyVal.pauthor))) = .ok as := by
  unfold getAuthors
  induction as with
  | nil => rfl
  | cons a t ih =>
    simp only [List.map_cons, mapExcept] at *
    simp [ih]
    rfl

theorem getStrList_pstr (xs : List String) :
    getStrList (some (.plist (xs.map PyVal.pstr))) = .ok xs := by
  unfold getStrList
  induction xs with
  | nil => rfl
  | cons a t ih =>
    simp only [List.map_cons, mapExcept] at *
    simp [ih]
    rfl

theorem toDict_explicit (it : DigestItem) :
    toDict it
      = [("title", .pstr it.title), ("url", .pstr it.url),
         ("item_type", .pstr it.item_type.value),
         ("source_type", .pstr it.source_type.value),
         ("date_published", match it.date_published with
           | some d => .pstr d.isoformat
           | none => .pnull),
         ("date_fetched", .pstr it.date_fetched.isoformat),
         ("doi", optStrVal it.doi),
         ("authors", .plist (it.authors.map asdictAuthor)),
         ("abstract", optStrVal it.abstract),
         ("journal", optStrVal it.journal),
         ("year", optNatVal it.year),
         ("source_name", optStrVal it.source_name),
         ("excerpt", optStrVal it.excerpt),
         ("relevance_score", .pnat it.relevance_score),
         ("matched_keywords", .plist (it.matched_keywords.map .pstr))] := by
  rcases hdp : it.date_published with _ | dp
  · simp only [toDict, asdictItem, hdp, optDTVal]
    rfl
  · simp only [toDict, asdictItem, hdp, optDTVal]
    rfl

theorem fromDict_toDict (now : DateTime) (it : DigestItem)
    (hf : it.date_fetched.Valid)
    (hp : ∀ d, it.date_published = some d → d.Valid) :
    fromDict now (toDict it) = .ok (roundTripDict it, it) := by
  rw [toDict_explicit]
  rcases hdp : it.date_published with _ | dp
  · simp [fromDict, hdp, List.lookup_cons, pyToItemType_value, pyToSourceType_value,
      dictAssign, pyTruthy_iso, pyFromIso_iso it.date_fetched hf,
      mapExcept_pyToAuthor, mkItem, itemFieldNames, getOptStr_optStrVal,
      getOptNat_optNatVal, getAuthors_pauthor, getStrList_pstr, getOptDT_optDTVal,
      roundTripDict, optDTVal, getScore, pyTruthy, isoformat_ne_empty, exceptBind_ok,
      getOptDT]
    rw [← hdp]
  · have hdv : dp.Valid := hp dp hdp
    simp [fromDict, hdp, List.lookup_cons, pyToItemType_value, pyToSourceType_value,
      dictAssign, pyTruthy_iso, pyFromIso_iso it.date_fetched hf, pyFromIso_iso dp hdv,
      mapExcept_pyToAuthor, mkItem, itemFieldNames, getOptStr_optStrVal,
      getOptNat_optNatVal, getAuthors_pauthor, getStrList_pstr, getOptDT_optDTVal,
      roundTripDict, optDTVal, getScore, pyTruthy, isoformat_ne_empty, exceptBind_ok,
      getOptDT]
    rw [← hdp]

/-- C9: serialization round-trips: `from_dict` after `to_dict` rebuilds
an item equal to the original in every field, with the enums passing
through their string tags, the timestamps through ISO-8601 text, and
absent optional fields serialized as `null`, never as an empty string. -/
theorem C9_roundtrip_spec :
    ∀ (now : DateTime) (it : DigestItem),
      it.date_fetched.Valid →
      (∀ d, it.date_published = some d → d.Valid) →
      (fromDict now (toDict it)).map Prod.snd = Except.ok it ∧
      List.lookup "item_type" (toDict it) = some (.pstr it.item_type.value) ∧
      List.lookup "source_type" (toDict it) = some (.pstr it.source_type.value) ∧
      List.lookup "date_fetched" (toDict it)
        = some (.pstr it.date_fetched.isoformat) ∧
      (it.doi = none → List.lookup "doi" (toDict it) = some .pnull) ∧
      (it.date_published = none →
        List.lookup "date_published" (toDict it) = some .pnull) := by
  intro now it hf hp
  refine ⟨?_, ?_, ?_, ?_, ?_, ?_⟩
  · rw [fromDict_toDict now it hf hp]
    rfl
  · rw [toDict_explicit]
    simp [List.lookup_cons]
  · rw [toDict_explicit]
    simp [List.lookup_cons]
  · rw [toDict_explicit]
    simp [List.lookup_cons]
  · intro hdoi
    rw [toDict_explicit]
    simp [List.lookup_cons, hdoi, optStrVal]
  · intro hdp
    rw [toDict_explicit]
    simp [List.lookup_cons, hdp]

/-- Witness for C9 at a concrete item: full round trip and null
serialization of the absent DOI. -/
theorem C9_witness :
    (fromDict dtB (toDict itemA)).map Prod.snd = Except.ok itemA ∧
    List.lookup "doi" (toDict itemA) = some PyVal.pnull := by
  have h := C9_roundtrip_spec dtB itemA (by decide)
    (by intro d hd; simp [itemA] at hd)
  exact ⟨h.1, h.2.2.2.2.1 rfl⟩

/-- A dict already holding enum members and `Author`-free values: it is
accepted by `from_dict` and comes back entirely unchanged. -/
def cexDict : PyDict :=
  [("title", .pstr "t"), ("url", .pstr "u"), ("item_type", .pitem .PAPER),
   ("source_type", .psource .RSS), ("authors", .plist [])]

/-- C10: the claim quantifies over every dictionary `from_dict` accepts;
`cexDict` is accepted (enum members pass through `ItemType(...)`
unchanged, both date keys are absent, `authors` is the empty list), and
the call returns the argument dictionary exactly as it was — no entry
changes, so the mutation claim fails on this input. -/
theorem C10_counterexample :
    fromDict dtA cexDict
      = Except.ok (cexDict,
          { title := "t", url := "u", item_type := .PAPER, source_type := .RSS,
            date_fetched := dtA }) := rfl

/-- C10 (amended): for every dictionary produced by `to_dict` (string
tags, ISO date strings, author field-dicts), `from_dict` does mutate its
argument in place: afterwards the dict holds enum members under
`item_type`/`source_type`, a datetime under `date_fetched` (and under
`date_published` when present), and `Author` objects under `authors`, so
it always differs from the `to_dict` input. -/
theorem C10_fromDict_mutation :
    ∀ (now : DateTime) (it : DigestItem),
      it.date_fetched.Valid →
      (∀ d, it.date_published = some d → d.Valid) →
      fromDict now (toDict it) = Except.ok (roundTripDict it, it) ∧
      List.lookup "item_type" (roundTripDict it) = some (.pitem it.item_type) ∧
      List.lookup "source_type" (roundTripDict it)
        = some (.psource it.source_type) ∧
      List.lookup "date_fetched" (roundTripDict it) = some (.pdt it.date_fetched) ∧
      List.lookup "authors" (roundTripDict it)
        = some (.plist (it.authors.map PyVal.pauthor)) ∧
      roundTripDict it ≠ toDict it := by
  intro now it hf hp
  refine ⟨fromDict_toDict now it hf hp, ?_, ?_, ?_, ?_, ?_⟩
  · simp [roundTripDict, List.lookup_cons]
  · simp [roundTripDict, List.lookup_cons]
  · simp [roundTripDict, List.lookup_cons]
  · simp [roundTripDict, List.lookup_cons]
  · intro h
    have h2 := congrArg (List.lookup "date_fetched") h
    rw [toDict_explicit] at h2
    simp [roundTripDict, List.lookup_cons] at h2

/-- Witness for C10 (amended) at a concrete item. -/
theorem C10_witness :
    fromDict dtB (toDict itemA) = Except.ok (roundTripDict itemA, itemA) ∧
    roundTripDict itemA ≠ toDict itemA := by
  have h := C10_fromDict_mutation dtB itemA (by decide)
    (by intro d hd; simp [itemA] at hd)
  exact ⟨h.1, h.2.2.2.2.2⟩

end Digest
